import Mathlib

/-!
# GLGMLM backend — referral-tree core, shallow embedding

Shallow embedding of the referral-tree data model and operations of the
MLM backend (Express + Mongoose), together with theorems settling the
spec claims.

Source files embedded:
* `src/models/User.js` — the user schema (`findByEmail`, `findByCode`,
  `generateUniqueCode`, pre-save code assignment);
* `src/routes/auth.js` — `POST /register` (sponsor resolution, level
  assignment, downline push, upline build);
* `src/routes/dashboard.js`, ambassador routes (`src/unnamed/part_000`) —
  earnings aggregation (`GET /earnings`) and network materialization
  (`GET /network`, `buildNetworkTree`);
* user-management routes (`src/unnamed/part_001`) — `PUT /profile/:userId`
  (sensitive-field stripping) and `DELETE /:userId`.

Modelling conventions: Mongo documents become a `List User` store with
`Nat` ids; `ObjectId` generation, timestamps and `Math.random()` draws are
passed in as explicit parameters; JS numbers used for money are modelled
as `Int` (rates in micro-units); bcrypt hashing is external and the
password field carries
the submitted string; plumbing-only profile fields (avatar, address,
language, timezone, verification flags) are omitted — no claim touches
them.
-/

/-- `role` enum of the user schema (`User.js` lines 31–35). -/
inductive Role where
  | admin
  | ambassador
  | client
deriving Repr, DecidableEq

/-- `status` enum of the user schema (`User.js` lines 36–40). -/
inductive Status where
  | active
  | inactive
  | pending
deriving Repr, DecidableEq

/-- A user document (`User.js` schema), restricted to the fields the
referral-tree core reads or writes.  `commissionRate` (a JS float,
default 0.05) is modelled in micro-units: the stored value × 10^6. -/
structure User where
  id : Nat
  email : String
  password : String
  firstName : String
  lastName : String
  phone : Option String
  role : Role
  status : Status
  sponsorId : Option Nat
  upline : List Nat
  downline : List Nat
  level : Nat
  ambassadorCode : Option String
  clientCode : Option String
  commissionRate : Int
  totalEarnings : Int
  totalPurchases : Int
  createdAt : Nat
deriving Repr, DecidableEq

instance : Inhabited User :=
  ⟨{ id := 0, email := "", password := "", firstName := "", lastName := "",
     phone := none, role := .client, status := .pending, sponsorId := none,
     upline := [], downline := [], level := 0, ambassadorCode := none,
     clientCode := none, commissionRate := 0, totalEarnings := 0,
     totalPurchases := 0, createdAt := 0 }⟩

/-- The node store: the Mongo `users` collection as a list of documents. -/
abbrev Store := List User

/-- `User.findById`: lookup by `_id`. -/
def findById (store : Store) (id : Nat) : Option User :=
  store.find? (fun u => u.id = id)

/-- JS `String.prototype.toLowerCase()` as used by the schema's
`lowercase: true` and `findByEmail`, modelled per character on the ASCII
range. -/
def jsToLower (s : String) : String :=
  String.mk (s.data.map Char.toLower)

/-- `User.findByEmail` (`User.js` lines 195–197): lookup by lowercased
email.  Stored emails are themselves lowercased by the schema on save. -/
def findByEmail (store : Store) (email : String) : Option User :=
  store.find? (fun u => u.email = jsToLower email)

/-- `User.findByCode` (`User.js` lines 199–203): lookup matching either
the `ambassadorCode` or the `clientCode` field. -/
def findByCode (store : Store) (code : String) : Option User :=
  store.find? (fun u => u.ambassadorCode = some code ∨ u.clientCode = some code)

/-- Mongoose `document.save()` on an already-stored document: replace the
document with the same `_id`. -/
def saveUser (store : Store) (u : User) : Store :=
  store.map (fun v => if v.id = u.id then u else v)

/-- The six-digit zero-padded random number of `generateUniqueCode`
(`User.js` line 167): `toString().padStart(6, '0')`. -/
def pad6 (n : Nat) : String :=
  let s := toString n
  String.mk (List.replicate (6 - s.length) '0') ++ s

/-- Candidate code `prefix + randomNum` of `generateUniqueCode`
(`User.js` lines 167–168); the draw is `< 1000000`. -/
def codeOf (pfx : String) (n : Nat) : String :=
  pfx ++ pad6 (n % 1000000)

/-- The collision check of `generateUniqueCode` (`User.js` lines 170–172):
some stored user holds the candidate as `ambassadorCode` or `clientCode`. -/
def codeTaken (store : Store) (code : String) : Bool :=
  store.any (fun u => u.ambassadorCode = some code ∨ u.clientCode = some code)

/-- `generateUniqueCode` (`User.js` lines 161–180).  The unbounded
retry-on-collision loop over `Math.random()` draws is modelled by a list
of draws: the loop walks the list and returns the first candidate free in
both code namespaces, `none` when the supplied draws are exhausted. -/
def generateUniqueCode (store : Store) (pfx : String) : List Nat → Option String
  | [] => none
  | n :: rest =>
    let code := codeOf pfx n
    if codeTaken store code then generateUniqueCode store pfx rest
    else some code

/-- The pre-save hook assigning codes to new documents (`User.js` lines
144–154): a new ambassador gets a fresh `AMB` code, a new client a fresh
`CLI` code, admins get none.  `none` when the draws ran out. -/
def assignCodes (store : Store) (u : User) (draws : List Nat) : Option User :=
  match u.role with
  | .ambassador =>
    (generateUniqueCode store "AMB" draws).map
      (fun c => { u with ambassadorCode := some c })
  | .client =>
    (generateUniqueCode store "CLI" draws).map
      (fun c => { u with clientCode := some c })
  | .admin => some u

/-- The upline walk of `POST /register` (`auth.js` lines 73–79): starting
from the resolved sponsor, push each `sponsorId` and step to that user;
stop at a root (`sponsorId` absent) or when a lookup fails (the id is
pushed first, then the loop breaks).  The unbounded `while` is given the
store size as fuel. -/
def buildUpline (store : Store) (cursor : User) : Nat → List Nat
  | 0 => []
  | f + 1 =>
    match cursor.sponsorId with
    | none => []
    | some sid =>
      sid :: (match findById store sid with
              | none => []
              | some nxt => buildUpline store nxt f)

/-- Request body of `POST /register` (`auth.js` lines 10–18); `role`
defaults to `client` at destructuring. -/
structure RegisterRequest where
  email : String
  password : String
  firstName : String
  lastName : String
  phone : Option String
  role : Role
  sponsorCode : Option String
deriving Repr, DecidableEq

/-- The error responses of `POST /register`. -/
inductive RegError where
  | missingFields
  | userExists
  | invalidSponsorCode
  | codeGenExhausted
deriving Repr, DecidableEq

/-- Outcome of `POST /register`: on success the updated store and the new
user as finally saved; on error the (untouched) store. -/
inductive RegResult where
  | ok (store : Store) (user : User)
  | err (e : RegError) (store : Store)
deriving Repr, DecidableEq

/-- The store an outcome leaves behind. -/
def RegResult.store : RegResult → Store
  | .ok s _ => s
  | .err _ s => s

/-- Continuation of `POST /register` after sponsor resolution (`auth.js`
lines 49–89): build the user data (`sponsorId`/`level` only when a
sponsor was resolved), save it (pre-save hooks lowercase the email and
assign a role code), then, when a sponsor exists, push the new id onto
the sponsor's `downline`, save the sponsor, walk the upline chain and
save the user again. -/
def registerWith (store : Store) (req : RegisterRequest) (newId : Nat)
    (draws : List Nat) (now : Nat) (sponsorOpt : Option User) : RegResult :=
  let newUser : User :=
    { id := newId
      email := jsToLower req.email
      password := req.password
      firstName := req.firstName
      lastName := req.lastName
      phone := req.phone
      role := req.role
      status := .pending
      sponsorId := sponsorOpt.map (fun s => s.id)
      upline := []
      downline := []
      level := match sponsorOpt with
               | some s => s.level + 1
               | none => 0
      ambassadorCode := none
      clientCode := none
      commissionRate := 50000
      totalEarnings := 0
      totalPurchases := 0
      createdAt := now }
  match assignCodes store newUser draws with
  | none => .err .codeGenExhausted store
  | some u1 =>
    let store1 := store ++ [u1]
    match sponsorOpt with
    | none => .ok store1 u1
    | some s =>
      let s1 := { s with downline := s.downline ++ [newId] }
      let store2 := saveUser store1 s1
      let u2 := { u1 with upline := buildUpline store2 s1 store2.length }
      let store3 := saveUser store2 u2
      .ok store3 u2

/-- `POST /register` (`auth.js` lines 8–113): required-field check (JS
string truthiness: the empty string counts as missing), duplicate-email
check, sponsor resolution when a nonempty `sponsorCode` was supplied
(400 when it resolves to no user), then creation. -/
def register (store : Store) (req : RegisterRequest) (newId : Nat)
    (draws : List Nat) (now : Nat) : RegResult :=
  if req.email = "" ∨ req.password = "" ∨ req.firstName = "" ∨ req.lastName = "" then
    .err .missingFields store
  else
    match findByEmail store req.email with
    | some _ => .err .userExists store
    | none =>
      match req.sponsorCode with
      | some c =>
        if c = "" then registerWith store req newId draws now none
        else
          match findByCode store c with
          | none => .err .invalidSponsorCode store
          | some s => registerWith store req newId draws now (some s)
      | none => registerWith store req newId draws now none

/-- One month of the mocked monthly-earnings figures (`GET /earnings`,
ambassador routes lines 80–87): `Math.floor(Math.random() * 1000)` for
earnings and `Math.floor(Math.random() * 100)` for commission. -/
structure MonthEarn where
  month : String
  earnings : Nat
  commission : Nat
deriving Repr, DecidableEq

/-- The six month labels of the mocked chart. -/
def monthNames : List String := ["Gen", "Feb", "Mar", "Apr", "Mag", "Giu"]

/-- The `monthlyEarnings` array of `GET /earnings`: each handler run
consumes twelve fresh `Math.random()` draws (two per month, earnings then
commission).  The global RNG is modelled as a stream `rand` read at
consecutive indices from `offset`. -/
def monthlyEarningsAt (rand : Nat → Nat) (offset : Nat) : List MonthEarn :=
  (List.range 6).map (fun i =>
    { month := monthNames.getD i ""
      earnings := rand (offset + 2 * i) % 1000
      commission := rand (offset + 2 * i + 1) % 100 })

/-- The direct downline by the `sponsorId` index: `$match { sponsorId:
rootId }` of the earnings aggregation (`GET /earnings` lines 49–59) and
the `find({ sponsorId })` of the network route. -/
def directDownlineOf (store : Store) (rootId : Nat) : List User :=
  store.filter (fun u => u.sponsorId = some rootId)

/-- The flat (ungrouped) aggregate of `GET /earnings` (lines 49–59):
`$match { sponsorId: rootId }` then `$group` summing `totalEarnings` and
`totalPurchases` and counting.  Returns (earnings, purchases, count). -/
def earningsAggregate (store : Store) (rootId : Nat) : Int × Int × Nat :=
  ((directDownlineOf store rootId).foldr (fun u acc => u.totalEarnings + acc) 0,
   (directDownlineOf store rootId).foldr (fun u acc => u.totalPurchases + acc) 0,
   (directDownlineOf store rootId).length)

/-- One bucket of the by-level aggregation (`GET /earnings` lines 66–77):
`$match { upline: rootId }`, `$group` by `$level`, `$sort` ascending. -/
structure LevelGroup where
  level : Nat
  count : Nat
  totalEarnings : Int
  totalPurchases : Int
deriving Repr, DecidableEq

/-- Insert into an ascending list (models the `$sort { _id: 1 }`). -/
def insertAsc (n : Nat) : List Nat → List Nat
  | [] => [n]
  | x :: xs => if n ≤ x then n :: x :: xs else x :: insertAsc n xs

/-- Insertion sort, ascending. -/
def sortAsc : List Nat → List Nat
  | [] => []
  | x :: xs => insertAsc x (sortAsc xs)

/-- The `earningsByLevel` aggregation of `GET /earnings` (lines 66–77):
users whose `upline` array contains `rootId`, grouped by `level` (buckets
sorted by level ascending), each bucket carrying count and sums. -/
def earningsByLevel (store : Store) (rootId : Nat) : List LevelGroup :=
  let ms := store.filter (fun u => rootId ∈ u.upline)
  (sortAsc (ms.map (fun u => u.level)).dedup).map (fun lv =>
    let grp := ms.filter (fun u => u.level = lv)
    { level := lv
      count := grp.length
      totalEarnings := grp.foldr (fun u acc => u.totalEarnings + acc) 0
      totalPurchases := grp.foldr (fun u acc => u.totalPurchases + acc) 0 })

/-- The `summary` object of the `GET /earnings` response (lines 89–95).
JS float rates are modelled in micro-units (value × 10^6), exact for the
decimal rates involved: `totalCommission` carries the commission × 10^6
and `commissionRatePct` the `(commissionRate * 100).toFixed(1) + '%'`
display value × 10^6. -/
structure EarningsSummary where
  totalEarnings : Int
  totalCommission : Int
  memberCount : Nat
  commissionRatePct : Int
deriving Repr, DecidableEq

/-- The full `GET /earnings` response body (lines 89–98). -/
structure EarningsResponse where
  summary : EarningsSummary
  earningsByLevel : List LevelGroup
  monthlyEarnings : List MonthEarn
deriving Repr, DecidableEq

/-- `GET /earnings` (ambassador routes lines 44–107): flat aggregate over
the direct downline, commission from `req.user.commissionRate || 0.05`
(JS: a zero rate is falsy and falls back to 5%), by-level aggregation
over `upline` membership, and the randomized `monthlyEarnings` chart
consuming twelve RNG draws starting at `offset`. -/
def earningsResponse (store : Store) (user : User) (rand : Nat → Nat)
    (offset : Nat) : EarningsResponse :=
  let agg := earningsAggregate store user.id
  let rate : Int := if user.commissionRate = 0 then 50000 else user.commissionRate
  { summary :=
      { totalEarnings := agg.1
        totalCommission := agg.2.1 * rate
        memberCount := agg.2.2
        commissionRatePct := rate * 100 }
    earningsByLevel := earningsByLevel store user.id
    monthlyEarnings := monthlyEarningsAt rand offset }

/-- A node of the materialized network view (`GET /network`, the
`memberNode` object at lines 129–139). -/
inductive TreeNode where
  | node (id : Nat) (firstName : String) (lastName : String) (email : String)
      (role : Role) (status : Status) (level : Nat) (createdAt : Nat)
      (children : List TreeNode)
deriving Repr

/-- The child list of a materialized node. -/
def TreeNode.children : TreeNode → List TreeNode
  | .node _ _ _ _ _ _ _ _ cs => cs

/-- The id of a materialized node. -/
def TreeNode.nodeId : TreeNode → Nat
  | .node i _ _ _ _ _ _ _ _ => i

/-- Stable insertion into a `createdAt`-descending list. -/
def insertByCreatedDesc (m : User) : List User → List User
  | [] => [m]
  | x :: xs =>
    if x.createdAt ≥ m.createdAt then x :: insertByCreatedDesc m xs
    else m :: x :: xs

/-- Stable sort by `createdAt` descending (models `.sort({ createdAt: -1 })`). -/
def sortByCreatedDesc : List User → List User
  | [] => []
  | x :: xs => insertByCreatedDesc x (sortByCreatedDesc xs)

/-- The recursion of `buildNetworkTree` (`GET /network` lines 120–144),
carried out on the remaining-depth budget `maxLevel - currentLevel`: the
source stops with an empty list once `currentLevel >= maxLevel`, i.e.
exactly when the budget is zero, and each recursive call passes
`currentLevel + 1`, i.e. decrements the budget; otherwise it lists the
direct downline (newest first) and recurses on each member. -/
def buildNetworkTreeGo (store : Store) (userId : Nat) : Nat → List TreeNode
  | 0 => []
  | budget + 1 =>
    (sortByCreatedDesc (directDownlineOf store userId)).map
      (fun m =>
        .node m.id m.firstName m.lastName m.email m.role m.status m.level m.createdAt
          (buildNetworkTreeGo store m.id budget))

/-- `buildNetworkTree(userId, currentLevel, maxLevel)` of `GET /network`:
`maxLevel` comes from `parseInt(levels)` and may be negative, hence
`Int`; the remaining budget `(maxLevel - currentLevel).toNat` is zero
exactly when `currentLevel >= maxLevel`. -/
def buildNetworkTree (store : Store) (userId : Nat)
    (currentLevel maxLevel : Int) : List TreeNode :=
  buildNetworkTreeGo store userId (maxLevel - currentLevel).toNat

/-- The `network` field of the `GET /network` response (lines 110–157):
`buildNetworkTree(req.user._id)` starting at level 0, with the `levels`
query parameter defaulting to 3. -/
def networkTree (store : Store) (rootId : Nat) (levels : Option Int) : List TreeNode :=
  buildNetworkTree store rootId 0 (levels.getD 3)

/-- Outcome of `DELETE /:userId` (user-management routes lines 313–347). -/
inductive DeleteResult where
  | notFound
  | hasDownline
  | deleted
deriving Repr, DecidableEq

/-- `DELETE /:userId` (lines 313–347): 404 when the id is unknown, 400
when the user's `downline` is non-empty, otherwise
`findByIdAndDelete(userId)` — the document is removed and nothing else
(in particular not the sponsor's `downline` array) is touched. -/
def deleteUser (store : Store) (userId : Nat) : DeleteResult × Store :=
  match findById store userId with
  | none => (.notFound, store)
  | some u =>
    if u.downline.length > 0 then (.hasDownline, store)
    else (.deleted, store.filter (fun v => ¬ v.id = userId))

/-- The request body of `PUT /profile/:userId` (user-management routes
lines 43–95): any subset of user fields may be supplied.  `some` means
the key was present in the JSON body. -/
structure UpdateData where
  email : Option String
  password : Option String
  firstName : Option String
  lastName : Option String
  phone : Option String
  role : Option Role
  status : Option Status
  sponsorId : Option (Option Nat)
  upline : Option (List Nat)
  downline : Option (List Nat)
  level : Option Nat
  ambassadorCode : Option String
  clientCode : Option String
  commissionRate : Option Int
  totalEarnings : Option Int
  totalPurchases : Option Int
deriving Repr, DecidableEq

/-- The `delete updateData.*` block of `PUT /profile/:userId` (lines
57–67): the eleven sensitive keys are removed from the body before the
update is applied. -/
def stripSensitiveFields (d : UpdateData) : UpdateData :=
  { d with
    password := none
    role := none
    status := none
    ambassadorCode := none
    clientCode := none
    sponsorId := none
    upline := none
    downline := none
    level := none
    totalEarnings := none
    totalPurchases := none }

/-- `findByIdAndUpdate` field application: each key present in the body
overwrites the stored field (the schema lowercases an updated email). -/
def applyUpdate (u : User) (d : UpdateData) : User :=
  { u with
    email := match d.email with
             | some e => jsToLower e
             | none => u.email
    password := d.password.getD u.password
    firstName := d.firstName.getD u.firstName
    lastName := d.lastName.getD u.lastName
    phone := match d.phone with
             | some p => some p
             | none => u.phone
    role := d.role.getD u.role
    status := d.status.getD u.status
    sponsorId := d.sponsorId.getD u.sponsorId
    upline := d.upline.getD u.upline
    downline := d.downline.getD u.downline
    level := d.level.getD u.level
    ambassadorCode := match d.ambassadorCode with
                      | some c => some c
                      | none => u.ambassadorCode
    clientCode := match d.clientCode with
                  | some c => some c
                  | none => u.clientCode
    commissionRate := d.commissionRate.getD u.commissionRate
    totalEarnings := d.totalEarnings.getD u.totalEarnings
    totalPurchases := d.totalPurchases.getD u.totalPurchases }

/-- Outcome of `PUT /profile/:userId`. -/
inductive UpdateResult where
  | ok (store : Store) (user : User)
  | notFound (store : Store)
deriving Repr, DecidableEq

/-- `PUT /profile/:userId` (lines 43–95): strip the sensitive keys from
the body, then `findByIdAndUpdate` — 404 on an unknown id, otherwise the
remaining fields are applied and the updated document saved and
returned. -/
def updateProfile (store : Store) (userId : Nat) (d : UpdateData) : UpdateResult :=
  let d1 := stripSensitiveFields d
  match findById store userId with
  | none => .notFound store
  | some u =>
    let u1 := applyUpdate u d1
    .ok (saveUser store u1) u1

/-- Modelled from the spec: §3 — `earnings`/`purchases` are "accumulating
numeric totals, mutated by external business events (out of scope here)".
No route under `src/` mutates them; this missing external event sets a
stored user's `totalEarnings`. -/
def creditEarnings (store : Store) (userId : Nat) (amount : Int) : Store :=
  store.map (fun v => if v.id = userId then { v with totalEarnings := amount } else v)

/-- Definition following the spec's words (§4.3, claim comparison only):
the descendant set of `rootId` is the transitive closure of `children`;
since every node has exactly one parent this is the set of stored users
whose sponsor chain (the same walk `buildUpline` performs, started at the
user itself) passes through `rootId`. -/
def specDescendants (store : Store) (rootId : Nat) : List User :=
  store.filter (fun u => rootId ∈ buildUpline store u store.length)

/-- Definition following the spec's words (§4.3, claim comparison only):
the flat aggregate over the full descendant set — (earnings, purchases,
count). -/
def specFlatAggregate (store : Store) (rootId : Nat) : Int × Int × Nat :=
  ((specDescendants store rootId).foldr (fun u acc => u.totalEarnings + acc) 0,
   (specDescendants store rootId).foldr (fun u acc => u.totalPurchases + acc) 0,
   (specDescendants store rootId).length)

/-! ## Concrete registration chain A ← B ← C ← D

The scenario of spec §8: A registers as a root ambassador, B under A's
code, C under B's, D under C's.  Ids 1–4, `Math.random` draws chosen so
the generated codes are AMB000000 … AMB000003. -/

/-- Registration request of the root ambassador A. -/
def reqA : RegisterRequest :=
  { email := "a@x.com", password := "pw1234", firstName := "Ann",
    lastName := "Alpha", phone := none, role := .ambassador, sponsorCode := none }

/-- Registration request of B, sponsored by A's code. -/
def reqB : RegisterRequest :=
  { email := "b@x.com", password := "pw1234", firstName := "Ben",
    lastName := "Beta", phone := none, role := .ambassador,
    sponsorCode := some "AMB000000" }

/-- Registration request of C, sponsored by B's code. -/
def reqC : RegisterRequest :=
  { email := "c@x.com", password := "pw1234", firstName := "Cla",
    lastName := "Gamma", phone := none, role := .ambassador,
    sponsorCode := some "AMB000001" }

/-- Registration request of D, sponsored by C's code. -/
def reqD : RegisterRequest :=
  { email := "d@x.com", password := "pw1234", firstName := "Dan",
    lastName := "Delta", phone := none, role := .ambassador,
    sponsorCode := some "AMB000002" }

/-- Store after registering A into the empty store. -/
def storeA : Store := (register [] reqA 1 [0] 10).store

/-- Store after registering B under A. -/
def storeB : Store := (register storeA reqB 2 [1] 11).store

/-- Store after registering C under B. -/
def storeC : Store := (register storeB reqC 3 [2] 12).store

/-- Store after registering D under C. -/
def storeD : Store := (register storeC reqD 4 [3] 13).store

/-- The chain store with B, C and D each credited earnings of 10
(external business events, spec §3). -/
def chainEarnStore : Store :=
  creditEarnings (creditEarnings (creditEarnings storeD 2 10) 3 10) 4 10

mutual

/-- Depth of a materialized node: 1 plus the depth of its child forest. -/
def TreeNode.depth : TreeNode → Nat
  | .node _ _ _ _ _ _ _ _ cs => 1 + TreeNode.depthList cs

/-- Depth of a materialized forest: the maximum node depth, 0 when empty. -/
def TreeNode.depthList : List TreeNode → Nat
  | [] => 0
  | t :: ts => max (TreeNode.depth t) (TreeNode.depthList ts)

end

/-- The schema invariant that stored emails are lowercased
(`User.js` lines 5–11, `lowercase: true`). -/
def emailsLower (store : Store) : Prop :=
  ∀ u ∈ store, u.email = jsToLower u.email

/-- A call to `GET /earnings` against the global RNG, modelled as a
stream with a cursor: the response reads twelve draws and the cursor
advances past them. -/
def callEarnings (store : Store) (user : User) :
    (Nat → Nat) × Nat → EarningsResponse × ((Nat → Nat) × Nat) :=
  fun st => (earningsResponse store user st.1 st.2, (st.1, st.2 + 12))

/-- A call to `GET /network` against the global RNG stream: the handler
reads no draws, so the cursor is unchanged. -/
def callNetwork (store : Store) (rootId : Nat) (levels : Option Int) :
    (Nat → Nat) × Nat → List TreeNode × ((Nat → Nat) × Nat) :=
  fun st => (networkTree store rootId levels, st)

/-- The root ambassador A as stored after the four registrations. -/
def userA : User := (findById storeD 1).getD default

/-- C as stored after the four registrations (sponsor of D). -/
def userC : User := (findById storeD 3).getD default

/-- D as stored after the four registrations. -/
def userD : User := (findById storeD 4).getD default

/-- Extract the success user of a registration outcome. -/
def RegResult.okUser : RegResult → Option User
  | .ok _ u => some u
  | .err _ _ => none

/-! ## Helper lemmas about the registration pipeline -/

/-- The pre-save code hook touches only the code fields. -/
theorem assignCodes_frame (store : Store) (u : User) (draws : List Nat) (u' : User)
    (h : assignCodes store u draws = some u') :
    u'.id = u.id ∧ u'.email = u.email ∧ u'.sponsorId = u.sponsorId ∧
    u'.upline = u.upline ∧ u'.downline = u.downline ∧ u'.level = u.level ∧
    u'.password = u.password := by
  cases hr : u.role <;> simp only [assignCodes, hr] at h
  case admin =>
    cases h
    exact ⟨rfl, rfl, rfl, rfl, rfl, rfl, rfl⟩
  case ambassador =>
    rcases Option.map_eq_some'.mp h with ⟨c, _, hc⟩
    cases hc
    exact ⟨rfl, rfl, rfl, rfl, rfl, rfl, rfl⟩
  case client =>
    rcases Option.map_eq_some'.mp h with ⟨c, _, hc⟩
    cases hc
    exact ⟨rfl, rfl, rfl, rfl, rfl, rfl, rfl⟩

/-- With positive fuel, the first id the upline walk pushes is the
cursor's own `sponsorId` (and a cursor without one yields the empty
chain). -/
theorem buildUpline_head (store : Store) (c : User) (f : Nat) (hf : 0 < f) :
    (buildUpline store c f).head? = c.sponsorId := by
  cases f with
  | zero => omega
  | succ f =>
    cases hs : c.sponsorId <;>
      simp only [buildUpline, hs, List.head?]

/-- `registerWith` on success returns the new user with the assigned id,
lowercased email, sponsor link, level and upline head as built. -/
theorem registerWith_ok (store : Store) (req : RegisterRequest) (newId : Nat)
    (draws : List Nat) (now : Nat) (sponsorOpt : Option User) (store' : Store) (u : User)
    (h : registerWith store req newId draws now sponsorOpt = .ok store' u) :
    u.id = newId ∧
    u.email = jsToLower req.email ∧
    u.sponsorId = sponsorOpt.map (fun s => s.id) ∧
    u.level = (match sponsorOpt with | some s => s.level + 1 | none => 0) ∧
    (match sponsorOpt with
     | none => u.upline = []
     | some s => u.upline.head? = s.sponsorId) := by
  cases sponsorOpt with
  | none =>
    simp only [registerWith] at h
    split at h
    · exact RegResult.noConfusion h
    · rename_i u1 hac
      injection h with h1 h2
      subst h2
      obtain ⟨hid, hem, hsp, hup, _, hlv, _⟩ := assignCodes_frame _ _ _ _ hac
      exact ⟨hid, hem, hsp, hlv, hup⟩
  | some s =>
    simp only [registerWith] at h
    split at h
    · exact RegResult.noConfusion h
    · rename_i u1 hac
      injection h with h1 h2
      subst h2
      obtain ⟨hid, hem, hsp, hup, _, hlv, _⟩ := assignCodes_frame _ _ _ _ hac
      refine ⟨hid, hem, hsp, hlv, ?_⟩
      show (buildUpline _ _ _).head? = s.sponsorId
      rw [buildUpline_head]
      · simp [saveUser]

/-- Successful `POST /register` passed the duplicate-email check and came
through exactly one of the sponsor branches (a resolved nonempty code, or
no/empty code). -/
theorem register_ok_elim (store : Store) (req : RegisterRequest) (newId : Nat)
    (draws : List Nat) (now : Nat) (store' : Store) (u : User)
    (h : register store req newId draws now = .ok store' u) :
    findByEmail store req.email = none ∧
    ((∃ s c, req.sponsorCode = some c ∧ c ≠ "" ∧ findByCode store c = some s ∧
        registerWith store req newId draws now (some s) = .ok store' u) ∨
     ((req.sponsorCode = none ∨ req.sponsorCode = some "") ∧
        registerWith store req newId draws now none = .ok store' u)) := by
  unfold register at h
  split at h
  · exact RegResult.noConfusion h
  · split at h
    · exact RegResult.noConfusion h
    · rename_i hfe
      refine ⟨hfe, ?_⟩
      split at h
      · rename_i c hc
        by_cases hce : c = ""
        · subst hce
          rw [if_pos rfl] at h
          exact Or.inr ⟨Or.inr hc, h⟩
        · rw [if_neg hce] at h
          split at h
          · exact RegResult.noConfusion h
          · rename_i s hfc
            exact Or.inl ⟨s, c, hc, hce, hfc, h⟩
      · rename_i hc
        exact Or.inr ⟨Or.inl hc, h⟩


/-- C as stored in `storeC`, i.e. the sponsor document `POST /register`
resolves while registering D. -/
def userCpre : User := (findByCode storeC "AMB000002").getD default
/-- The user document returned by A's registration. -/
def regAuser : User := ((register [] reqA 1 [0] 10).okUser).getD default
/-- The user document returned by D's registration. -/
def regDuser : User := ((register storeC reqD 4 [3] 13).okUser).getD default

/-- C1, counterexample: in the registration chain A ← B ← C ← D the
stored upline of D is `[B.id, A.id] = [2, 1]`, which is neither
`[sponsor.id] ++ sponsor.upline = [3, 1]` nor the claimed
`[C.id, B.id, A.id] = [3, 2, 1]` — the direct sponsor's own id is never
recorded. -/
theorem c1_upline_counterexample :
    (findById storeD 4).map User.upline = some [2, 1] ∧
    (findById storeD 3).map (fun c => c.id :: c.upline) = some [3, 1] ∧
    ¬ (findById storeD 4).map User.upline =
        (findById storeD 3).map (fun c => c.id :: c.upline) ∧
    ¬ (findById storeD 4).map User.upline = some [3, 2, 1] := by decide

/-- C1, amended: a node registered without a sponsor has an empty
upline; a node registered under a resolved sponsor gets as upline the
walk starting at the sponsor's own `sponsorId` — so the chain excludes
the direct sponsor and is empty when the sponsor is a root.  In the
chain A ← B ← C ← D this gives `D.upline = [2, 1]` and `B.upline = []`. -/
theorem c1_upline_amended :
    (∀ store req newId draws now store' u, req.sponsorCode = none →
       register store req newId draws now = .ok store' u → u.upline = []) ∧
    (∀ store req newId draws now store' u c s, req.sponsorCode = some c → c ≠ "" →
       findByCode store c = some s →
       register store req newId draws now = .ok store' u →
       u.upline.head? = s.sponsorId) ∧
    (findById storeD 4).map User.upline = some [2, 1] ∧
    (findById storeD 2).map User.upline = some [] := by
  refine ⟨?_, ?_, by decide, by decide⟩
  · intro store req newId draws now store' u hc h
    rcases (register_ok_elim store req newId draws now store' u h).2 with
      ⟨s, c, hsc, _, _, _⟩ | ⟨_, hrw⟩
    · rw [hc] at hsc; exact Option.noConfusion hsc
    · exact (registerWith_ok store req newId draws now none store' u hrw).2.2.2.2
  · intro store req newId draws now store' u c s hc hcne hfc h
    rcases (register_ok_elim store req newId draws now store' u h).2 with
      ⟨s', c', hsc, _, hfc', hrw⟩ | ⟨hnone, _⟩
    · rw [hc] at hsc
      injection hsc with hcc
      subst hcc
      rw [hfc] at hfc'
      injection hfc' with hss
      subst hss
      exact (registerWith_ok store req newId draws now (some s) store' u hrw).2.2.2.2
    · rcases hnone with hn | hn <;> rw [hc] at hn
      · exact Option.noConfusion hn
      · injection hn with hn; exact absurd hn hcne

/-- C1 witness: the amended theorem applied to the concrete
registrations of A (no sponsor) and D (sponsor C). -/
theorem c1_upline_witness :
    regAuser.upline = [] ∧ regDuser.upline.head? = some 2 :=
  ⟨c1_upline_amended.1 [] reqA 1 [0] 10 storeA regAuser rfl (by decide),
   c1_upline_amended.2.1 storeC reqD 4 [3] 13 storeD regDuser "AMB000002" userCpre
     rfl (by decide) (by decide) (by decide)⟩

/-- A well-formed registration request carrying a sponsor code no
stored node owns. -/
def reqBad : RegisterRequest :=
  { email := "z@x.com", password := "pw1234", firstName := "Zoe",
    lastName := "Zeta", phone := none, role := .client,
    sponsorCode := some "AMB999999" }

/-- C5, confirmed: a registration carrying a nonempty sponsor code that
resolves to no stored node fails with the invalid-sponsor error and
returns the store unchanged (the error is raised before any node is
created or modified). -/
theorem c5_sponsor_not_found :
    ∀ store req newId draws now c, req.sponsorCode = some c → c ≠ "" →
      ¬(req.email = "" ∨ req.password = "" ∨ req.firstName = "" ∨ req.lastName = "") →
      findByEmail store req.email = none →
      findByCode store c = none →
      register store req newId draws now = .err .invalidSponsorCode store := by
  intro store req newId draws now c hc hcne hfields hfe hfc
  unfold register
  rw [if_neg hfields, hfe, hc]
  simp only [if_neg hcne, hfc]

/-- C5 witness: registering against the one-user store with the unknown
code AMB999999 fails and leaves the store untouched. -/
theorem c5_witness :
    register storeA reqBad 9 [9] 99 = .err .invalidSponsorCode storeA :=
  c5_sponsor_not_found storeA reqBad 9 [9] 99 "AMB999999" rfl (by decide)
    (by decide) (by decide) (by decide)

/-- C6, confirmed: a successful registration under a resolved sponsor
assigns `level = sponsor.level + 1`; without a sponsor code the level is
0; in the chain A ← B ← C ← D the stored level of D is 3. -/
theorem c6_level :
    (∀ store req newId draws now store' u c s, req.sponsorCode = some c → c ≠ "" →
       findByCode store c = some s →
       register store req newId draws now = .ok store' u → u.level = s.level + 1) ∧
    (∀ store req newId draws now store' u, req.sponsorCode = none →
       register store req newId draws now = .ok store' u → u.level = 0) ∧
    (findById storeD 4).map User.level = some 3 := by
  refine ⟨?_, ?_, by decide⟩
  · intro store req newId draws now store' u c s hc hcne hfc h
    rcases (register_ok_elim store req newId draws now store' u h).2 with
      ⟨s', c', hsc, _, hfc', hrw⟩ | ⟨hnone, _⟩
    · rw [hc] at hsc
      injection hsc with hcc
      subst hcc
      rw [hfc] at hfc'
      injection hfc' with hss
      subst hss
      exact (registerWith_ok store req newId draws now (some s) store' u hrw).2.2.2.1
    · rcases hnone with hn | hn <;> rw [hc] at hn
      · exact Option.noConfusion hn
      · injection hn with hn; exact absurd hn hcne
  · intro store req newId draws now store' u hc h
    rcases (register_ok_elim store req newId draws now store' u h).2 with
      ⟨s, c, hsc, _, _, _⟩ | ⟨_, hrw⟩
    · rw [hc] at hsc; exact Option.noConfusion hsc
    · exact (registerWith_ok store req newId draws now none store' u hrw).2.2.2.1

/-- C6 witness: the level theorem applied to the concrete registrations
of D (sponsor C, level 2 + 1) and A (root, level 0). -/
theorem c6_witness :
    regDuser.level = userCpre.level + 1 ∧ regAuser.level = 0 :=
  ⟨c6_level.1 storeC reqD 4 [3] 13 storeD regDuser "AMB000002" userCpre
     rfl (by decide) (by decide) (by decide),
   c6_level.2.1 [] reqA 1 [0] 10 storeA regAuser rfl (by decide)⟩

/-- C8, confirmed: whenever `generateUniqueCode` returns a code, that
code differs from every stored node's `ambassadorCode` and from every
stored node's `clientCode` — the collision retry checks the union of
both code namespaces. -/
theorem c8_code_unique :
    ∀ store pfx draws code, generateUniqueCode store pfx draws = some code →
      ∀ u ∈ store, u.ambassadorCode ≠ some code ∧ u.clientCode ≠ some code := by
  intro store pfx draws
  induction draws with
  | nil =>
    intro code h
    exact absurd h (by simp [generateUniqueCode])
  | cons n rest ih =>
    intro code h u hu
    rw [generateUniqueCode] at h
    by_cases htaken : codeTaken store (codeOf pfx n)
    · rw [if_pos htaken] at h
      exact ih code h u hu
    · rw [if_neg htaken] at h
      injection h with h
      subst h
      unfold codeTaken at htaken
      simp only [List.any_eq_true, decide_eq_true_eq, not_exists, not_or, not_and] at htaken
      exact htaken u hu

/-- C8 witness: the generator run against the four-user chain store with
draws `[0, 7]` skips the taken AMB000000 and returns AMB000007, free in
both namespaces. -/
theorem c8_witness :
    userA.ambassadorCode ≠ some "AMB000007" ∧ userA.clientCode ≠ some "AMB000007" :=
  c8_code_unique storeD "AMB" [0, 7] "AMB000007" (by decide) userA (by decide)

/-- Extract the success user of a profile update. -/
def UpdateResult.okUser : UpdateResult → Option User
  | .ok _ u => some u
  | .notFound _ => none

/-- The store a profile-update outcome leaves behind. -/
def UpdateResult.resStore : UpdateResult → Store
  | .ok s _ => s
  | .notFound s => s

/-- An adversarial profile-update body supplying every field, including
all the protected ones. -/
def dAll : UpdateData :=
  { email := some "EVIL@X.COM", password := some "hacked", firstName := some "Eve",
    lastName := some "Evil", phone := some "123", role := some .admin,
    status := some .active, sponsorId := some (some 99), upline := some [99],
    downline := some [99], level := some 99, ambassadorCode := some "AMB999998",
    clientCode := some "CLI999998", commissionRate := some 999999,
    totalEarnings := some 999, totalPurchases := some 999 }

/-- The document returned by updating C's profile with `dAll`. -/
def updCuser : User := ((updateProfile storeD 3 dAll).okUser).getD default

/-- C9, confirmed: whatever fields the `PUT /profile/:userId` body
carries, the updated document keeps the target's password, role, status,
ambassadorCode, clientCode, sponsorId, upline, downline, level,
totalEarnings and totalPurchases — those keys are stripped before the
update is applied. -/
theorem c9_profile_frame :
    ∀ store userId d store' u u', findById store userId = some u →
      updateProfile store userId d = .ok store' u' →
      u'.password = u.password ∧ u'.role = u.role ∧ u'.status = u.status ∧
      u'.ambassadorCode = u.ambassadorCode ∧ u'.clientCode = u.clientCode ∧
      u'.sponsorId = u.sponsorId ∧ u'.upline = u.upline ∧ u'.downline = u.downline ∧
      u'.level = u.level ∧ u'.totalEarnings = u.totalEarnings ∧
      u'.totalPurchases = u.totalPurchases := by
  intro store userId d store' u u' hfind hupd
  unfold updateProfile at hupd
  rw [hfind] at hupd
  injection hupd with h1 h2
  subst h2
  exact ⟨rfl, rfl, rfl, rfl, rfl, rfl, rfl, rfl, rfl, rfl, rfl⟩

/-- C9 witness: updating C with the all-fields body leaves every
protected field of C unchanged. -/
theorem c9_witness :
    updCuser.password = userC.password ∧ updCuser.role = userC.role ∧
    updCuser.status = userC.status ∧ updCuser.ambassadorCode = userC.ambassadorCode ∧
    updCuser.clientCode = userC.clientCode ∧ updCuser.sponsorId = userC.sponsorId ∧
    updCuser.upline = userC.upline ∧ updCuser.downline = userC.downline ∧
    updCuser.level = userC.level ∧ updCuser.totalEarnings = userC.totalEarnings ∧
    updCuser.totalPurchases = userC.totalPurchases :=
  c9_profile_frame storeD 3 dAll ((updateProfile storeD 3 dAll).resStore) userC updCuser
    (by decide) (by decide)

/-- C4, counterexample: deleting the leaf D (id 4) from the chain store
succeeds and removes D, but D's sponsor C (id 3) still carries `[4]` in
its `downline` — the id is not removed from the sponsor's child set. -/
theorem c4_delete_counterexample :
    (deleteUser storeD 4).1 = .deleted ∧
    findById (deleteUser storeD 4).2 4 = none ∧
    (findById (deleteUser storeD 4).2 3).map User.downline = some [4] ∧
    ¬ (findById (deleteUser storeD 4).2 3).map User.downline = some [] := by decide

/-- C4, amended: deleting a node with a non-empty downline fails with
the conflict error and leaves the store unchanged; deleting a leaf
succeeds and removes exactly that node — every other document, the
sponsor included, survives unchanged, so the sponsor's `downline` keeps
the dangling id. -/
theorem c4_delete_amended :
    ∀ store id u, findById store id = some u →
      (u.downline ≠ [] → deleteUser store id = (.hasDownline, store)) ∧
      (u.downline = [] →
        (deleteUser store id).1 = .deleted ∧
        findById (deleteUser store id).2 id = none ∧
        ∀ v ∈ store, v.id ≠ id → v ∈ (deleteUser store id).2) := by
  intro store id u hfind
  constructor
  · intro hne
    unfold deleteUser
    simp only [hfind]
    rw [if_pos]
    cases hd : u.downline with
    | nil => exact absurd hd hne
    | cons a t => simp [hd]
  · intro hemp
    unfold deleteUser
    simp only [hfind]
    rw [if_neg (by simp [hemp])]
    refine ⟨rfl, ?_, ?_⟩
    · apply List.find?_eq_none.mpr
      intro v hv
      have hmem := (List.mem_filter.mp hv).2
      simpa using hmem
    · intro v hv hne
      exact List.mem_filter.mpr ⟨hv, by simpa using hne⟩

/-- C4 witness: the amended theorem applied to C (non-empty downline)
and to the leaf D in the chain store. -/
theorem c4_delete_witness :
    deleteUser storeD 3 = (.hasDownline, storeD) ∧
    (deleteUser storeD 4).1 = .deleted :=
  ⟨(c4_delete_amended storeD 3 userC (by decide)).1 (by decide),
   ((c4_delete_amended storeD 4 userD (by decide)).2 (by decide)).1⟩

/-- A mapped forest is no deeper than a uniform bound on the images. -/
theorem depthList_map_le {β : Type} (g : β → TreeNode) (k : Nat)
    (hg : ∀ b, TreeNode.depth (g b) ≤ k) : ∀ l : List β, TreeNode.depthList (l.map g) ≤ k := by
  intro l
  induction l with
  | nil => simp [TreeNode.depthList]
  | cons a t ih =>
    simp only [List.map_cons, TreeNode.depthList]
    exact max_le (hg a) ih

/-- The materializer recursion never builds a forest deeper than its
remaining-depth budget. -/
theorem depthList_go_le (store : Store) :
    ∀ (fuel : Nat) (uid : Nat),
      TreeNode.depthList (buildNetworkTreeGo store uid fuel) ≤ fuel := by
  intro fuel
  induction fuel with
  | zero => intro uid; simp [buildNetworkTreeGo, TreeNode.depthList]
  | succ f ih =>
    intro uid
    rw [buildNetworkTreeGo]
    apply depthList_map_le
    intro m
    simp only [TreeNode.depth]
    have := ih m.id
    omega

/-- C3, confirmed: the materialized view is bounded by the remaining
depth budget `maxLevel - currentLevel` (so recursion never passes
`maxDepth`); with `maxDepth = 1` the view lists exactly the direct
downline with empty child lists; `maxDepth ≤ 0` yields no children at
all; and the `levels` query parameter defaults to 3. -/
theorem c3_materialize_depth :
    (∀ store uid cl ml,
       TreeNode.depthList (buildNetworkTree store uid cl ml) ≤ (ml - cl).toNat) ∧
    (∀ store root t, t ∈ networkTree store root (some 1) → t.children = []) ∧
    (∀ store root,
       (networkTree store root (some 1)).map TreeNode.nodeId =
         (sortByCreatedDesc (directDownlineOf store root)).map (fun m => m.id)) ∧
    (∀ store root ml, ml ≤ 0 → networkTree store root (some ml) = []) ∧
    (∀ store root, networkTree store root none = buildNetworkTree store root 0 3) := by
  refine ⟨?_, ?_, ?_, ?_, ?_⟩
  · intro store uid cl ml
    exact depthList_go_le store _ uid
  · intro store root t ht
    have h1 : networkTree store root (some 1) = buildNetworkTreeGo store root 1 := rfl
    rw [h1, buildNetworkTreeGo] at ht
    rcases List.mem_map.mp ht with ⟨m, _, rfl⟩
    rfl
  · intro store root
    have h1 : networkTree store root (some 1) = buildNetworkTreeGo store root 1 := rfl
    rw [h1, buildNetworkTreeGo, List.map_map]
    rfl
  · intro store root ml hml
    have h0 : ((some ml).getD 3 - 0).toNat = 0 := by
      simp only [Option.getD]
      omega
    show buildNetworkTreeGo store root (((some ml).getD 3 - 0).toNat) = []
    rw [h0]
    rfl
  · intro store root
    rfl

/-- C3 witness: in the chain store, materializing A at depth 1 yields
the single child B with an empty child list, and depth 0 yields none. -/
theorem c3_witness :
    TreeNode.children
      (TreeNode.node 2 "Ben" "Beta" "b@x.com" .ambassador .pending 1 11 []) = [] ∧
    networkTree storeD 1 (some 0) = [] :=
  ⟨c3_materialize_depth.2.1 storeD 1 _ (List.Mem.head _),
   c3_materialize_depth.2.2.2.1 storeD 1 0 (by omega)⟩

/-- A pointwise-weaker filter keeps at least as many elements. -/
theorem filter_length_mono {α : Type} {p q : α → Bool}
    (h : ∀ a, p a = true → q a = true) :
    ∀ l : List α, (l.filter p).length ≤ (l.filter q).length := by
  intro l
  induction l with
  | nil => simp
  | cons a t ih =>
    by_cases hp : p a = true
    · rw [List.filter_cons_of_pos hp, List.filter_cons_of_pos (h a hp)]
      simpa using ih
    · rw [List.filter_cons_of_neg (by simpa using hp)]
      refine le_trans ih ?_
      cases hq : q a
      · rw [List.filter_cons_of_neg (by simp [hq])]
      · rw [List.filter_cons_of_pos hq]
        simp

/-- C2, counterexample: with B under A, C under B, D under C, each
credited earnings 10, the flat earnings aggregate of A reports
`(10, 0, 1)` — earnings 10 and one node — not the `(30, 0, 3)` the
descendant-set reading demands (which the spec-side definition indeed
yields). -/
theorem c2_aggregate_counterexample :
    earningsAggregate chainEarnStore 1 = (10, 0, 1) ∧
    ¬ earningsAggregate chainEarnStore 1 = (30, 0, 3) ∧
    specFlatAggregate chainEarnStore 1 = (30, 0, 3) := by decide

/-- C2, amended: the flat aggregate sums earnings/purchases and counts
over the direct downline only (`sponsorId = rootId`), a subset of the
descendant set, so in the chain scenario A's aggregate reports earnings
10 and node count 1 while the full descendant set holds 30 and 3. -/
theorem c2_aggregate_amended :
    (∀ store rootId,
       (earningsAggregate store rootId).2.2 ≤ (specFlatAggregate store rootId).2.2) ∧
    earningsAggregate chainEarnStore 1 = (10, 0, 1) ∧
    specFlatAggregate chainEarnStore 1 = (30, 0, 3) := by
  refine ⟨?_, by decide, by decide⟩
  intro store rootId
  show (directDownlineOf store rootId).length ≤ (specDescendants store rootId).length
  unfold directDownlineOf specDescendants
  cases store with
  | nil => simp
  | cons a l =>
    apply filter_length_mono
    intro u hp
    simp only [decide_eq_true_eq] at hp ⊢
    show rootId ∈ buildUpline (a :: l) u (a :: l).length
    have hlen : (a :: l : Store).length = l.length + 1 := rfl
    rw [hlen, buildUpline, hp]
    exact List.mem_cons_self _ _

/-- C7, counterexample: two successive `GET /earnings` calls with no
intervening store writes return different responses — the mocked
`monthlyEarnings` chart re-reads the RNG stream. -/
theorem c7_idempotence_counterexample :
    (callEarnings storeD userA ((fun n => n), 0)).1 ≠
      (callEarnings storeD userA ((callEarnings storeD userA ((fun n => n), 0)).2)).1 :=
  fun h => absurd (congrArg EarningsResponse.monthlyEarnings h) (by decide)

/-- C7, amended: `GET /network` is idempotent across successive calls,
and the deterministic components of `GET /earnings` (`summary`,
`earningsByLevel`) agree across calls; only the randomized
`monthlyEarnings` chart varies. -/
theorem c7_idempotence_amended :
    (∀ store rootId levels st,
       (callNetwork store rootId levels st).1 =
         (callNetwork store rootId levels ((callNetwork store rootId levels st).2)).1) ∧
    (∀ store user st,
       ((callEarnings store user st).1).summary =
         ((callEarnings store user ((callEarnings store user st).2)).1).summary ∧
       ((callEarnings store user st).1).earningsByLevel =
         ((callEarnings store user ((callEarnings store user st).2)).1).earningsByLevel) :=
  ⟨fun _ _ _ _ => rfl, fun _ _ _ => ⟨rfl, rfl⟩⟩

/-- A member of a saved store is the saved document or an original. -/
theorem mem_saveUser (store : Store) (w v' : User) (h : v' ∈ saveUser store w) :
    v' = w ∨ v' ∈ store := by
  unfold saveUser at h
  rcases List.mem_map.mp h with ⟨v, hv, he⟩
  by_cases hid : v.id = w.id
  · left; rw [← he]; simp [hid]
  · right; rw [← he]; simp [hid]; exact hv

/-- Saving a document whose email agrees with every stored document of
the same id leaves the store's email column unchanged. -/
theorem map_email_saveUser (store : Store) (w : User)
    (h : ∀ v ∈ store, v.id = w.id → v.email = w.email) :
    (saveUser store w).map (fun v => v.email) = store.map (fun v => v.email) := by
  unfold saveUser
  rw [List.map_map]
  apply List.map_congr_left
  intro v hv
  by_cases hid : v.id = w.id
  · simp only [Function.comp_apply, if_pos hid]
    exact (h v hv hid).symm
  · simp only [Function.comp_apply, if_neg hid]

/-- A sponsorless registration appends exactly the lowercased new email
to the store's email column. -/
theorem registerWith_none_emails (store : Store) (req : RegisterRequest) (newId : Nat)
    (draws : List Nat) (now : Nat) (store' : Store) (u : User)
    (hrw : registerWith store req newId draws now none = .ok store' u) :
    store'.map (fun v => v.email) = store.map (fun v => v.email) ++ [jsToLower req.email] := by
  simp only [registerWith] at hrw
  split at hrw
  · exact RegResult.noConfusion hrw
  · rename_i u1 hac
    obtain ⟨_, hem, _⟩ := assignCodes_frame _ _ _ _ hac
    injection hrw with h1 h2
    subst h1
    rw [List.map_append]
    simp only [List.map_cons, List.map_nil]
    rw [hem]

/-- A sponsored registration appends exactly the lowercased new email
to the store's email column: the two sponsor/upline saves rewrite only
documents whose email is unchanged (given distinct ids and a fresh new
id). -/
theorem registerWith_some_emails (store : Store) (req : RegisterRequest) (newId : Nat)
    (draws : List Nat) (now : Nat) (s : User) (store' : Store) (u : User)
    (hrw : registerWith store req newId draws now (some s) = .ok store' u)
    (hidnd : (store.map (fun v => v.id)).Nodup)
    (hfresh : ∀ v ∈ store, v.id ≠ newId)
    (hsmem : s ∈ store) :
    store'.map (fun v => v.email) = store.map (fun v => v.email) ++ [jsToLower req.email] := by
  simp only [registerWith] at hrw
  split at hrw
  · exact RegResult.noConfusion hrw
  · rename_i u1 hac
    obtain ⟨hid, hem, _⟩ := assignCodes_frame _ _ _ _ hac
    have hsid : s.id ≠ newId := hfresh s hsmem
    injection hrw with h1 h2
    subst h1
    rw [map_email_saveUser, map_email_saveUser, List.map_append]
    · simp only [List.map_cons, List.map_nil]
      rw [hem]
    · intro v hv hvid
      rcases List.mem_append.mp hv with hv' | hv'
      · have hvs : v = s := List.inj_on_of_nodup_map hidnd hv' hsmem hvid
        rw [hvs]
      · have hvu : v = u1 := by simpa using hv'
        exact absurd (show s.id = newId from ((hvu ▸ hvid : u1.id = _).symm.trans hid))
          hsid
    · intro v hv hvid
      rcases mem_saveUser _ _ _ hv with rfl | hv'
      · exact absurd (show s.id = newId from hvid.trans hid) hsid
      · rcases List.mem_append.mp hv' with hv'' | hv''
        · exact absurd (show v.id = newId from hvid.trans hid) (hfresh v hv'')
        · have hvu : v = u1 := by simpa using hv''
          rw [hvu]

/-- C10, confirmed: a registration whose email already belongs to a
stored node up to lowercasing fails before any node is created or
modified (with the missing-fields or duplicate-user 400), and every
successful registration preserves distinctness of the stored email
column (given the store invariants: distinct ids, fresh new id). -/
theorem c10_email_uniqueness :
    (∀ store req newId draws now, emailsLower store →
       (∃ u0 ∈ store, jsToLower u0.email = jsToLower req.email) →
       ∃ e, register store req newId draws now = .err e store ∧
         (e = .missingFields ∨ e = .userExists)) ∧
    (∀ store req newId draws now store' u,
       (store.map (fun v => v.id)).Nodup →
       (∀ v ∈ store, v.id ≠ newId) →
       (store.map (fun v => v.email)).Nodup →
       register store req newId draws now = .ok store' u →
       (store'.map (fun v => v.email)).Nodup) := by
  constructor
  · intro store req newId draws now hlow hdup
    by_cases hmiss : (req.email = "" ∨ req.password = "" ∨ req.firstName = "" ∨ req.lastName = "")
    · exact ⟨.missingFields, by unfold register; rw [if_pos hmiss], Or.inl rfl⟩
    · cases hfe : findByEmail store req.email with
      | some v =>
        refine ⟨.userExists, ?_, Or.inr rfl⟩
        unfold register
        rw [if_neg hmiss]
        simp only [hfe]
      | none =>
        exfalso
        obtain ⟨u0, hu0, he0⟩ := hdup
        have hne := List.find?_eq_none.mp hfe u0 hu0
        simp only [decide_eq_true_eq] at hne
        exact hne ((hlow u0 hu0).trans he0)
  · intro store req newId draws now store' u hidnd hfresh hend h
    obtain ⟨hfe, hcase⟩ := register_ok_elim store req newId draws now store' u h
    have hnotin : ∀ v ∈ store, v.email ≠ jsToLower req.email := by
      intro v hv
      have hne := List.find?_eq_none.mp hfe v hv
      simpa using hne
    have hemails : store'.map (fun v => v.email) =
        store.map (fun v => v.email) ++ [jsToLower req.email] := by
      rcases hcase with ⟨s, c, _, _, hfc, hrw⟩ | ⟨_, hrw⟩
      · exact registerWith_some_emails store req newId draws now s store' u hrw
          hidnd hfresh (List.mem_of_find?_eq_some hfc)
      · exact registerWith_none_emails store req newId draws now store' u hrw
    rw [hemails, List.nodup_append]
    refine ⟨hend, List.nodup_singleton _, ?_⟩
    intro e hmem hmem1
    have he1 : e = jsToLower req.email := by simpa using hmem1
    rcases List.mem_map.mp hmem with ⟨v, hv, hveq⟩
    exact hnotin v hv (hveq.trans he1)

/-- The user document returned by B's registration. -/
def regBuser : User := ((register storeA reqB 2 [1] 11).okUser).getD default

/-- C10 witness: re-registering A's email against the one-user store
fails with the duplicate error, and B's registration keeps the email
column duplicate-free. -/
theorem c10_witness :
    register storeA reqA 8 [8] 88 = .err .userExists storeA ∧
    (storeB.map (fun v => v.email)).Nodup := by
  constructor
  · obtain ⟨e, h1, h2⟩ := c10_email_uniqueness.1 storeA reqA 8 [8] 88
      (by
        show ∀ u ∈ storeA, u.email = jsToLower u.email
        decide)
      ⟨regAuser, by decide, by decide⟩
    rcases h2 with rfl | rfl
    · exact absurd h1 (by decide)
    · exact h1
  · exact c10_email_uniqueness.2 storeA reqB 2 [1] 11 storeB regBuser
      (by decide) (by decide) (by decide) (by decide)
